import Mathlib

/-!
The timelapse program: capture and stitch stages.

A shallow embedding of `src/timelapse.go` and `src/main.go`.

* Go `time.Duration` and `int` are 64-bit signed integers: they are modelled as `Int`
  and every arithmetic result that can leave the range is wrapped with `wrapInt64`.
* Go `uint` is modelled as `Nat` below `2 ^ 64`; the conversion `int(x)` is `uintToInt`.
* The camera, the clock, the file system and the video writer belong to the operating
  system and to the vision library. Their answers are parameters of the model
  (`CaptureEnv`, `StitchEnv`), and every call made to them is recorded, in order, in a
  list of `Event`s.
* The capture loop has no bound written in the source, so its model takes a number of
  iterations it may run (`fuel`) and returns `none` when that number does not suffice.
-/

namespace Timelapse

/-! Go primitives -/

/-- Two's complement wrap-around of a mathematical integer into the `int64` range. -/
def wrapInt64 (x : Int) : Int := (x + 2 ^ 63) % 2 ^ 64 - 2 ^ 63

/-- Membership of the `int64` range. -/
def isInt64 (x : Int) : Prop := -(2 : Int) ^ 63 ≤ x ∧ x < 2 ^ 63

instance (x : Int) : Decidable (isInt64 x) := by unfold isInt64; infer_instance

/-- The Go conversion `int(x)` of a `uint` value (both 64 bits wide). -/
def uintToInt (x : Nat) : Int := wrapInt64 (x % 2 ^ 64)

/-- Go `strings.HasSuffix`: `len(s) >= len(suffix) && s[len(s)-len(suffix):] == suffix`. -/
def HasSuffix (s suffix : String) : Bool :=
  decide (suffix.data.length ≤ s.data.length) &&
    (s.data.drop (s.data.length - suffix.data.length) == suffix.data)

/-- Go `strconv.FormatUint(n, 10)`. -/
def FormatUint (n : Nat) : String := String.mk (Nat.toDigits 10 n)

/-- Go `strconv.FormatInt(i, 10)`. -/
def FormatInt (i : Int) : String :=
  if i < 0 then "-" ++ FormatUint i.natAbs else FormatUint i.natAbs

/-! Constants of `timelapse.go` -/

def imageFormat : String := "jpg"
def videoFormat : String := "avi"
def camWidth : Nat := 1920
def camHeight : Nat := 1080

/-! Results and recorded calls -/

/-- How a Go function with result type `error` ends. -/
inductive Result where
  | ok
  | error (msg : String)
  | panic (msg : String)
  deriving DecidableEq, Repr

/-- What `cam.Read(&img)` followed by `img.Empty()` can observe. -/
inductive ReadOutcome where
  | failed
  | empty
  | frame
  deriving DecidableEq, Repr

/-- One entry of a directory listing (`os.FileInfo`, reduced to what the code reads). -/
structure FileInfo where
  name : String
  isDir : Bool
  deriving DecidableEq, Repr

/-- The calls the two stages make to the outside world, and what they log. -/
inductive Event where
  | log (msg : String)
  | logFrameCount (frameCount : Int)
  | openVideoCapture (deviceID : Int)
  | camSet (property : String) (value : Nat)
  | mkdirAll (dirName : String)
  | camRead (outcome : ReadOutcome)
  | imWrite (fileName : String) (ok : Bool)
  | sleep (d : Int)
  | camClose
  | readDir (dirName : String)
  | imRead (fileName : String)
  | videoWriterFile (fileName : String) (codec : String) (fps : Nat)
  | writerWrite (fileName : String) (ok : Bool)
  | writerClose
  deriving DecidableEq, Repr

/-- Put events in front of the trace of the rest of a run. -/
def prepend (evs : List Event) (r : Result × List Event) : Result × List Event :=
  (r.1, evs ++ r.2)

/-- Put events behind the trace of a run (deferred calls). -/
def andThen (r : Result × List Event) (evs : List Event) : Result × List Event :=
  (r.1, r.2 ++ evs)

/-! Capture stage -/

/-- The answers of the outside world to the capture stage. -/
structure CaptureEnv where
  /-- error of `gocv.OpenVideoCapture`, if any -/
  openErr : Option String
  /-- error of `os.MkdirAll`, if any -/
  mkdirErr : Option String
  /-- outcomes of the successive `cam.Read` calls; once the list is used up every
  read yields a non-empty frame -/
  reads : List ReadOutcome
  /-- outcome of the `n`-th `gocv.IMWrite` call (counted from 0) -/
  writeOk : Nat → Bool
  /-- value of `time.Now().Unix()` at the `n`-th `gocv.IMWrite` call -/
  unixNow : Nat → Int

/-- The `for` loop of `captureFrames` (lines 67-90). `timeElapsed` is the loop variable
of the source, `n` counts the images written so far. -/
def captureLoop (dirName : String) (duration interval : Int) (writeOk : Nat → Bool)
    (unixNow : Nat → Int) : Nat → List ReadOutcome → Int → Nat → Option (Result × List Event)
  | 0, _, _, _ => none
  | fuel + 1, reads, timeElapsed, n =>
    match reads.headD ReadOutcome.frame with
    | ReadOutcome.failed =>
      (captureLoop dirName duration interval writeOk unixNow fuel reads.tail timeElapsed n).map
        (prepend [Event.camRead ReadOutcome.failed, Event.log "cannot read from device"])
    | ReadOutcome.empty =>
      (captureLoop dirName duration interval writeOk unixNow fuel reads.tail timeElapsed n).map
        (prepend [Event.camRead ReadOutcome.empty])
    | ReadOutcome.frame =>
      let imgFileName := dirName ++ FormatInt (unixNow n) ++ "." ++ imageFormat
      if writeOk n = false then
        some (Result.error "failed to write image to file",
          [Event.camRead ReadOutcome.frame, Event.imWrite imgFileName false])
      else if timeElapsed ≥ duration then
        some (Result.ok, [Event.camRead ReadOutcome.frame, Event.imWrite imgFileName true])
      else
        (captureLoop dirName duration interval writeOk unixNow fuel reads.tail
            (wrapInt64 (timeElapsed + interval)) (n + 1)).map
          (prepend [Event.camRead ReadOutcome.frame, Event.imWrite imgFileName true,
            Event.sleep interval])

/-- The function `captureFrames` (lines 27-93). `strconv.ParseInt` is applied to the
`%d` rendering of an `int64`, so it cannot fail and `frameCount` is the quotient itself. -/
def captureFrames (env : CaptureEnv) (fuel : Nat) (dirName : String) (deviceID : Nat)
    (duration interval : Int) : Option (Result × List Event) :=
  if duration = 0 ∨ interval = 0 then
    some (Result.error "duration and interval must be non-zero", [])
  else if duration ≤ interval then
    some (Result.error "timelapse duration must be greater than the interval", [])
  else
    let frameCount := wrapInt64 (wrapInt64 (Int.tdiv duration interval) + 1)
    let logs := [Event.logFrameCount frameCount, Event.openVideoCapture (uintToInt deviceID)]
    match env.openErr with
    | some e => some (Result.error ("failed to open video capture: " ++ e), logs)
    | none =>
      let setup := logs ++ [Event.camSet "VideoCaptureFrameWidth" camWidth,
        Event.camSet "VideoCaptureFrameHeight" camHeight, Event.mkdirAll dirName]
      match env.mkdirErr with
      | some e =>
        some (Result.error ("failed to create directory for timelapse images: " ++ e),
          setup ++ [Event.camClose])
      | none =>
        (captureLoop dirName duration interval env.writeOk env.unixNow fuel env.reads 0 0).map
          (fun r => andThen (prepend setup r) [Event.camClose])

/-! Stitch stage -/

/-- The answers of the outside world to the stitch stage. -/
structure StitchEnv where
  /-- result of `ioutil.ReadDir`: an error text or the listing, sorted by file name -/
  readDir : Except String (List FileInfo)
  /-- error of `gocv.VideoWriterFile`, if any -/
  writerErr : Option String
  /-- error of the `n`-th `writer.Write` call (counted from 0), if any -/
  writeErr : Nat → Option String

/-- The `for ... range files` loop of `stitchFrames` (lines 124-139). `count` is the
variable of the source (it never exceeds `len(files)`, so it cannot overflow), `n` counts
the frames written so far. The remainder `%` of Go truncates towards zero and panics on
a zero divisor. -/
def stitchLoop (dirName : String) (frameStep : Nat) (writeErr : Nat → Option String) :
    List FileInfo → Int → Nat → Result × List Event
  | [], _, _ => (Result.ok, [])
  | f :: fs, count, n =>
    if f.isDir || !HasSuffix f.name imageFormat then
      stitchLoop dirName frameStep writeErr fs count n
    else
      let count := count + 1
      if uintToInt frameStep = 0 then
        (Result.panic "runtime error: integer divide by zero", [])
      else if Int.tmod count (uintToInt frameStep) ≠ 0 then
        stitchLoop dirName frameStep writeErr fs count n
      else
        match writeErr n with
        | some e =>
          (Result.error ("error reading image file (" ++ f.name ++ ") from \"" ++ dirName ++
              "\" directory: " ++ e),
            [Event.imRead (dirName ++ f.name), Event.writerWrite (dirName ++ f.name) false])
        | none =>
          prepend [Event.imRead (dirName ++ f.name), Event.writerWrite (dirName ++ f.name) true]
            (stitchLoop dirName frameStep writeErr fs count (n + 1))

/-- The name of the video file, as built on lines 113-114. -/
def videoFileName (fps frameStep : Nat) : String :=
  let videoFileName := "fps-" ++ FormatUint fps
  videoFileName ++ "_step-" ++ FormatUint frameStep ++ "_timelapse." ++ videoFormat

/-- The function `stitchFrames` (lines 96-142). -/
def stitchFrames (env : StitchEnv) (dirName : String) (fps frameStep : Nat) :
    Result × List Event :=
  match env.readDir with
  | Except.error e =>
    (Result.error ("error collecting files in \"" ++ dirName ++ "\" directory: " ++ e),
      [Event.readDir dirName])
  | Except.ok files =>
    if files.length < 2 then
      (Result.error "two or more files are required to perform stitching",
        [Event.readDir dirName])
    else
      let opened := [Event.readDir dirName,
        Event.imRead (dirName ++ (files.headD { name := "", isDir := false }).name),
        Event.videoWriterFile (dirName ++ "../" ++ videoFileName fps frameStep) "MJPG" fps]
      match env.writerErr with
      | some e => (Result.error ("error creating video writer: " ++ e), opened)
      | none =>
        andThen
          (prepend
            (opened ++ [Event.log ("  Timelapse video will be named \"" ++
              videoFileName fps frameStep ++ "\".")])
            (stitchLoop dirName frameStep env.writeErr files 0 0))
          [Event.writerClose]

/-! Orchestration (`main.go`) -/

/-- The parsed command line flags. -/
structure Flags where
  cmd : String
  deviceID : Nat
  duration : Int
  interval : Int
  fps : Nat
  frameStep : Nat
  stitchDir : String

/-- The default values of the flags (lines 12-18). -/
def defaultFlags : Flags :=
  { cmd := "both", deviceID := 0, duration := 3600000000000, interval := 60000000000,
    fps := 25, frameStep := 1, stitchDir := "" }

/-- What `main` does: log lines and calls of the two stages, each call with its
arguments, its result and the events it produced. -/
inductive MainEvent where
  | log (msg : String)
  | captureFrames (dirName : String) (deviceID : Nat) (duration interval : Int)
      (result : Result) (trace : List Event)
  | stitchFrames (dirName : String) (fps frameStep : Nat) (result : Result)
      (trace : List Event)
  deriving DecidableEq, Repr

/-- How `main` ends. -/
inductive Exit where
  | returned
  | panicked
  deriving DecidableEq, Repr

/-- The part of `main` after the `switch` (lines 50-71). -/
def runStages (cenv : CaptureEnv) (senv : StitchEnv) (fuel : Nat) (flags : Flags)
    (performCapture performStitch : Bool) (dirName : String) : Option (Exit × List MainEvent) :=
  let stitchPart (dirName : String) (done : List MainEvent) : Exit × List MainEvent :=
    if performStitch then
      let r := stitchFrames senv dirName flags.fps flags.frameStep
      let call := MainEvent.stitchFrames dirName flags.fps flags.frameStep r.1 r.2
      let start := done ++ [MainEvent.log "> Generating timelapse video from frames.", call]
      match r.1 with
      | Result.ok =>
        (Exit.returned, start ++ [MainEvent.log "  Timelapse video stitching complete.",
          MainEvent.log "> Timelapse processing complete."])
      | Result.error e => (Exit.returned, start ++ [MainEvent.log ("failed to stitch frames: " ++ e)])
      | Result.panic _ => (Exit.panicked, start)
    else
      (Exit.returned, done ++ [MainEvent.log "> Timelapse processing complete."])
  if performCapture then
    let dirName := "./timelapses/" ++ dirName ++ "/frames/"
    match captureFrames cenv fuel dirName flags.deviceID flags.duration flags.interval with
    | none => none
    | some r =>
      let call := MainEvent.captureFrames dirName flags.deviceID flags.duration
        flags.interval r.1 r.2
      let start := [MainEvent.log "> Starting timelapse frame capture.", call]
      match r.1 with
      | Result.ok =>
        some (stitchPart dirName (start ++ [MainEvent.log "  Timelapse frame capture complete."]))
      | Result.error e =>
        some (Exit.returned, start ++ [MainEvent.log ("failed to capture frames: " ++ e)])
      | Result.panic _ => some (Exit.panicked, start)
  else
    some (stitchPart dirName [])

/-- The function `main` after `flag.Parse()` (lines 22-71). `now` is the rendering of
`time.Now()` in the layout `Mon-02-Jan-2006_15-04-05`. -/
def main (now : String) (cenv : CaptureEnv) (senv : StitchEnv) (fuel : Nat) (flags : Flags) :
    Option (Exit × List MainEvent) :=
  if flags.frameStep = 0 then
    some (Exit.returned, [MainEvent.log "frame_step must be greater than 0"])
  else if flags.fps = 0 then
    some (Exit.returned, [MainEvent.log "fps must be greater than 0"])
  else
    let dirName := now
    if flags.cmd = "both" then
      runStages cenv senv fuel flags true true dirName
    else if flags.cmd = "capture" then
      runStages cenv senv fuel flags true false dirName
    else if flags.cmd = "stitch" then
      runStages cenv senv fuel flags false true flags.stitchDir
    else
      some (Exit.returned, [MainEvent.log "cmd must be either \"both\", \"capture\" or \"stitch\""])

/-! Observations on traces -/

/-- Number of `gocv.IMWrite` calls recorded in a trace. -/
def imWriteCount : List Event → Nat
  | [] => 0
  | Event.imWrite _ _ :: tr => imWriteCount tr + 1
  | _ :: tr => imWriteCount tr

/-- Sum of the arguments of the `time.Sleep` calls recorded in a trace. -/
def totalSlept : List Event → Int
  | [] => 0
  | Event.sleep d :: tr => d + totalSlept tr
  | _ :: tr => totalSlept tr

/-- The events of an iteration that ends in `continue` after an unusable read. -/
def isRetry : Event → Bool
  | Event.camRead ReadOutcome.failed => true
  | Event.camRead ReadOutcome.empty => true
  | Event.log _ => true
  | _ => false

/-- A trace without the iterations that ended in `continue` after an unusable read. -/
def dropRetries (tr : List Event) : List Event := tr.filter (fun e => !isRetry e)

/-- The least number of sleeps of length `interval` that add up to `duration` or more. -/
def sleepsNeeded (duration interval : Int) : Nat := ((duration + interval - 1) / interval).toNat

/-- The events of one iteration in which the read and the write succeed. -/
def frameEvents (dirName : String) (unixNow : Nat → Int) (n : Nat) : List Event :=
  [Event.camRead ReadOutcome.frame,
    Event.imWrite (dirName ++ FormatInt (unixNow n) ++ "." ++ imageFormat) true]

/-- The trace of `m` iterations that write frame `k`, `k + 1`, ... and sleep, followed by
one last iteration that writes a frame and leaves the loop. -/
def cleanTrace (dirName : String) (interval : Int) (unixNow : Nat → Int) : Nat → Nat → List Event
  | k, 0 => frameEvents dirName unixNow k
  | k, m + 1 => frameEvents dirName unixNow k ++ Event.sleep interval ::
      cleanTrace dirName interval unixNow (k + 1) m

/-- The events of `captureFrames` between the validation and the loop (lines 37-61),
when the camera opens and the directory is created. -/
def setupEvents (dirName : String) (deviceID : Nat) (duration interval : Int) : List Event :=
  [Event.logFrameCount (wrapInt64 (wrapInt64 (Int.tdiv duration interval) + 1)),
    Event.openVideoCapture (uintToInt deviceID),
    Event.camSet "VideoCaptureFrameWidth" camWidth,
    Event.camSet "VideoCaptureFrameHeight" camHeight, Event.mkdirAll dirName]

/-- A world with the camera reads `reads`, in which every other call succeeds. -/
def captureWith (reads : List ReadOutcome) : CaptureEnv :=
  { openErr := none, mkdirErr := none, reads := reads, writeOk := fun _ => true,
    unixNow := fun n => 1600000000 + n }

/-- An entry that takes part in the stitching: not a directory, and a name that ends
in the image extension. -/
def eligible (f : FileInfo) : Bool := !f.isDir && HasSuffix f.name imageFormat

/-- The entries of a list whose position is a multiple of `k`, in the order of the list;
positions are counted from `first`. -/
def atMultiples (k first : Nat) (l : List FileInfo) : List FileInfo :=
  ((l.enumFrom first).filter (fun p => p.1 % k = 0)).map Prod.snd

/-- The selection as the specification words it: the eligible entries whose 1-based
position among the eligible entries is a multiple of `k`. -/
def specSelected (k : Nat) (files : List FileInfo) : List FileInfo :=
  atMultiples k 1 (files.filter eligible)

/-- The events of reading the given entries from `dirName` and writing each to the video. -/
def writeEvents (dirName : String) : List FileInfo → List Event
  | [] => []
  | f :: fs => Event.imRead (dirName ++ f.name) ::
      Event.writerWrite (dirName ++ f.name) true :: writeEvents dirName fs

/-- The files of the successful `writer.Write` calls of a trace, in order. -/
def writtenFrames : List Event → List String
  | [] => []
  | Event.writerWrite fileName true :: tr => fileName :: writtenFrames tr
  | _ :: tr => writtenFrames tr

/-- The paths given to `gocv.VideoWriterFile` in a trace. -/
def writerPaths : List Event → List String
  | [] => []
  | Event.videoWriterFile fileName _ _ :: tr => fileName :: writerPaths tr
  | _ :: tr => writerPaths tr

/-- The paths given to `gocv.IMRead` in a trace. -/
def readPaths : List Event → List String
  | [] => []
  | Event.imRead fileName :: tr => fileName :: readPaths tr
  | _ :: tr => readPaths tr

/-- A world for the stitch stage with the listing `files`, in which every call succeeds. -/
def stitchWith (files : List FileInfo) : StitchEnv :=
  { readDir := Except.ok files, writerErr := none, writeErr := fun _ => none }

/-- A listing of plain files with the given names. -/
def plainFiles (names : List String) : List FileInfo :=
  names.map (fun name => { name := name, isDir := false })

/-! Helper lemmas: integers -/

theorem wrapInt64_eq_self {x : Int} (h : isInt64 x) : wrapInt64 x = x := by
  unfold isInt64 at h
  unfold wrapInt64
  omega

theorem sleepsNeeded_spec {d i : Int} (hi : 0 < i) (hd : 0 < d) :
    d ≤ (sleepsNeeded d i : Int) * i ∧ (sleepsNeeded d i : Int) * i < d + i := by
  unfold sleepsNeeded
  have hq : 0 ≤ (d + i - 1) / i := Int.ediv_nonneg (by omega) hi.le
  rw [Int.toNat_of_nonneg hq]
  have h1 := Int.emod_add_ediv (d + i - 1) i
  have h2 := Int.emod_nonneg (d + i - 1) hi.ne'
  have h3 := Int.emod_lt_of_pos (d + i - 1) hi
  constructor <;> nlinarith

theorem lt_of_lt_sleepsNeeded {d i : Int} (hi : 0 < i) (hd : 0 < d) {k : Nat}
    (hk : k < sleepsNeeded d i) : (k : Int) * i < d := by
  have h := (sleepsNeeded_spec hi hd).2
  have hk' : (k : Int) + 1 ≤ (sleepsNeeded d i : Int) := by exact_mod_cast hk
  nlinarith

/-! Helper lemmas: the capture loop -/

theorem captureLoop_frame_continue (dirName : String) (d i : Int) (writeOk : Nat → Bool)
    (unixNow : Nat → Int) (fuel : Nat) (reads : List ReadOutcome) (e : Int) (n : Nat)
    (hr : reads.headD ReadOutcome.frame = ReadOutcome.frame) (hw : writeOk n = true)
    (he : e < d) :
    captureLoop dirName d i writeOk unixNow (fuel + 1) reads e n =
      (captureLoop dirName d i writeOk unixNow fuel reads.tail (wrapInt64 (e + i)) (n + 1)).map
        (prepend (frameEvents dirName unixNow n ++ [Event.sleep i])) := by
  rw [captureLoop, hr]
  simp [hw, not_le.mpr he, frameEvents]

theorem captureLoop_frame_break (dirName : String) (d i : Int) (writeOk : Nat → Bool)
    (unixNow : Nat → Int) (fuel : Nat) (reads : List ReadOutcome) (e : Int) (n : Nat)
    (hr : reads.headD ReadOutcome.frame = ReadOutcome.frame) (hw : writeOk n = true)
    (he : d ≤ e) :
    captureLoop dirName d i writeOk unixNow (fuel + 1) reads e n =
      some (Result.ok, frameEvents dirName unixNow n) := by
  rw [captureLoop, hr]
  simp [hw, he, frameEvents]

theorem captureLoop_clean (dirName : String) (d i : Int) (writeOk : Nat → Bool)
    (unixNow : Nat → Int) (hi : 0 < i) (hd : 0 < d) (hw : ∀ n, writeOk n = true)
    (hfit : (sleepsNeeded d i : Int) * i < 2 ^ 63) :
    ∀ m k : Nat, k + m = sleepsNeeded d i →
      captureLoop dirName d i writeOk unixNow (m + 1) [] ((k : Int) * i) k =
        some (Result.ok, cleanTrace dirName i unixNow k m) := by
  intro m
  induction m with
  | zero =>
    intro k hk
    have hk' : k = sleepsNeeded d i := by omega
    have hge : d ≤ (k : Int) * i := by rw [hk']; exact (sleepsNeeded_spec hi hd).1
    rw [captureLoop_frame_break dirName d i writeOk unixNow 0 [] _ k rfl (hw k) hge]
    rfl
  | succ m ih =>
    intro k hk
    have hlt : (k : Int) * i < d := lt_of_lt_sleepsNeeded hi hd (by omega)
    rw [captureLoop_frame_continue dirName d i writeOk unixNow (m + 1) [] _ k rfl (hw k) hlt]
    have hnext : wrapInt64 ((k : Int) * i + i) = ((k + 1 : Nat) : Int) * i := by
      have hle : ((k + 1 : Nat) : Int) ≤ (sleepsNeeded d i : Int) := by
        exact_mod_cast (by omega : k + 1 ≤ sleepsNeeded d i)
      have hk0 : (0 : Int) ≤ (k : Int) := Int.natCast_nonneg k
      rw [wrapInt64_eq_self]
      · push_cast; ring
      · unfold isInt64
        push_cast at hle ⊢
        constructor <;> nlinarith
    rw [hnext, List.tail_nil, ih (k + 1) (by omega)]
    simp [prepend, cleanTrace]

theorem captureLoop_short (dirName : String) (d i : Int) (writeOk : Nat → Bool)
    (unixNow : Nat → Int) (hi : 0 < i) (hd : 0 < d) (hw : ∀ n, writeOk n = true)
    (hfit : (sleepsNeeded d i : Int) * i < 2 ^ 63) :
    ∀ m k : Nat, k + m = sleepsNeeded d i →
      captureLoop dirName d i writeOk unixNow m [] ((k : Int) * i) k = none := by
  intro m
  induction m with
  | zero => intro k _; rfl
  | succ m ih =>
    intro k hk
    have hlt : (k : Int) * i < d := lt_of_lt_sleepsNeeded hi hd (by omega)
    rw [captureLoop_frame_continue dirName d i writeOk unixNow m [] _ k rfl (hw k) hlt]
    have hnext : wrapInt64 ((k : Int) * i + i) = ((k + 1 : Nat) : Int) * i := by
      have hle : ((k + 1 : Nat) : Int) ≤ (sleepsNeeded d i : Int) := by
        exact_mod_cast (by omega : k + 1 ≤ sleepsNeeded d i)
      have hk0 : (0 : Int) ≤ (k : Int) := Int.natCast_nonneg k
      rw [wrapInt64_eq_self]
      · push_cast; ring
      · unfold isInt64
        push_cast at hle ⊢
        constructor <;> nlinarith
    rw [hnext, List.tail_nil, ih (k + 1) (by omega)]
    rfl

theorem imWriteCount_cleanTrace (dirName : String) (i : Int) (unixNow : Nat → Int) :
    ∀ m k : Nat, imWriteCount (cleanTrace dirName i unixNow k m) = m + 1 := by
  intro m
  induction m with
  | zero => intro k; rfl
  | succ m ih => intro k; simp [cleanTrace, frameEvents, imWriteCount, ih]

theorem totalSlept_cleanTrace (dirName : String) (i : Int) (unixNow : Nat → Int) :
    ∀ m k : Nat, totalSlept (cleanTrace dirName i unixNow k m) = (m : Int) * i := by
  intro m
  induction m with
  | zero => intro k; simp [cleanTrace, frameEvents, totalSlept]
  | succ m ih =>
    intro k
    simp [cleanTrace, frameEvents, totalSlept, ih]
    ring

theorem captureLoop_failed (dirName : String) (d i : Int) (writeOk : Nat → Bool)
    (unixNow : Nat → Int) (fuel : Nat) (rest : List ReadOutcome) (e : Int) (n : Nat) :
    captureLoop dirName d i writeOk unixNow (fuel + 1) (ReadOutcome.failed :: rest) e n =
      (captureLoop dirName d i writeOk unixNow fuel rest e n).map
        (prepend [Event.camRead ReadOutcome.failed, Event.log "cannot read from device"]) := by
  rw [captureLoop]; rfl

theorem captureLoop_empty (dirName : String) (d i : Int) (writeOk : Nat → Bool)
    (unixNow : Nat → Int) (fuel : Nat) (rest : List ReadOutcome) (e : Int) (n : Nat) :
    captureLoop dirName d i writeOk unixNow (fuel + 1) (ReadOutcome.empty :: rest) e n =
      (captureLoop dirName d i writeOk unixNow fuel rest e n).map
        (prepend [Event.camRead ReadOutcome.empty]) := by
  rw [captureLoop]; rfl

theorem captureLoop_write_fails (dirName : String) (d i : Int) (writeOk : Nat → Bool)
    (unixNow : Nat → Int) (fuel : Nat) (reads : List ReadOutcome) (e : Int) (n : Nat)
    (hr : reads.headD ReadOutcome.frame = ReadOutcome.frame) (hw : writeOk n = false) :
    captureLoop dirName d i writeOk unixNow (fuel + 1) reads e n =
      some (Result.error "failed to write image to file",
        [Event.camRead ReadOutcome.frame,
          Event.imWrite (dirName ++ FormatInt (unixNow n) ++ "." ++ imageFormat) false]) := by
  rw [captureLoop, hr]
  simp [hw]

/-- The three ways an iteration that reads a frame can go. -/
theorem captureLoop_frame_cases (dirName : String) (d i : Int) (writeOk : Nat → Bool)
    (unixNow : Nat → Int) (e : Int) (n : Nat) :
    (∃ r, dropRetries r.2 = r.2 ∧ ∀ fuel1 reads1,
        reads1.headD ReadOutcome.frame = ReadOutcome.frame →
        captureLoop dirName d i writeOk unixNow (fuel1 + 1) reads1 e n = some r) ∨
    (∀ fuel1 reads1, reads1.headD ReadOutcome.frame = ReadOutcome.frame →
      captureLoop dirName d i writeOk unixNow (fuel1 + 1) reads1 e n =
        (captureLoop dirName d i writeOk unixNow fuel1 reads1.tail (wrapInt64 (e + i)) (n + 1)).map
          (prepend (frameEvents dirName unixNow n ++ [Event.sleep i]))) := by
  by_cases hw : writeOk n = true
  · by_cases he : d ≤ e
    · left
      exact ⟨_, rfl, fun fuel1 reads1 h1 =>
        captureLoop_frame_break dirName d i writeOk unixNow fuel1 reads1 e n h1 hw he⟩
    · right
      exact fun fuel1 reads1 h1 =>
        captureLoop_frame_continue dirName d i writeOk unixNow fuel1 reads1 e n h1 hw
          (not_le.mp he)
  · left
    have hw' : writeOk n = false := by simpa using hw
    exact ⟨_, rfl, fun fuel1 reads1 h1 =>
      captureLoop_write_fails dirName d i writeOk unixNow fuel1 reads1 e n h1 hw'⟩

theorem map_prepend_eq_some {o : Option (Result × List Event)} {evs : List Event}
    {res : Result} {tr : List Event} (h : o.map (prepend evs) = some (res, tr)) :
    ∃ tr0, o = some (res, tr0) ∧ tr = evs ++ tr0 := by
  cases o with
  | none => simp at h
  | some r =>
    obtain ⟨r1, r2⟩ := r
    simp only [Option.map_some', prepend, Option.some.injEq, Prod.mk.injEq] at h
    exact ⟨r2, by rw [h.1], h.2.symm⟩

theorem captureLoop_mono (dirName : String) (d i : Int) (writeOk : Nat → Bool)
    (unixNow : Nat → Int) :
    ∀ (fuel : Nat) (reads : List ReadOutcome) (e : Int) (n : Nat) (r : Result × List Event),
      captureLoop dirName d i writeOk unixNow fuel reads e n = some r →
      ∀ k, captureLoop dirName d i writeOk unixNow (fuel + k) reads e n = some r := by
  intro fuel
  induction fuel with
  | zero => intro reads e n r h; simp [captureLoop] at h
  | succ fuel ih =>
    intro reads e n r h k
    obtain ⟨res, tr⟩ := r
    have hk : fuel + 1 + k = (fuel + k) + 1 := by omega
    rw [hk]
    cases hr : reads.headD ReadOutcome.frame with
    | failed =>
      cases reads with
      | nil => simp at hr
      | cons o rest =>
        simp only [List.headD_cons] at hr
        subst hr
        rw [captureLoop_failed] at h ⊢
        obtain ⟨tr0, h0, rfl⟩ := map_prepend_eq_some h
        rw [ih rest e n _ h0 k]; rfl
    | empty =>
      cases reads with
      | nil => simp at hr
      | cons o rest =>
        simp only [List.headD_cons] at hr
        subst hr
        rw [captureLoop_empty] at h ⊢
        obtain ⟨tr0, h0, rfl⟩ := map_prepend_eq_some h
        rw [ih rest e n _ h0 k]; rfl
    | frame =>
      rcases captureLoop_frame_cases dirName d i writeOk unixNow e n with
        ⟨r, _, hstop⟩ | hgo
      · rw [hstop fuel reads hr] at h
        rw [hstop (fuel + k) reads hr, h]
      · rw [hgo fuel reads hr] at h
        obtain ⟨tr0, h0, rfl⟩ := map_prepend_eq_some h
        rw [hgo (fuel + k) reads hr, ih _ _ _ _ h0 k]; rfl

theorem dropRetries_append (a b : List Event) :
    dropRetries (a ++ b) = dropRetries a ++ dropRetries b := by
  simp [dropRetries]

theorem captureLoop_nil_noRetry (dirName : String) (d i : Int) (writeOk : Nat → Bool)
    (unixNow : Nat → Int) :
    ∀ (fuel : Nat) (e : Int) (n : Nat) (res : Result) (tr : List Event),
      captureLoop dirName d i writeOk unixNow fuel [] e n = some (res, tr) →
      dropRetries tr = tr := by
  intro fuel
  induction fuel with
  | zero => intro e n res tr h; simp [captureLoop] at h
  | succ fuel ih =>
    intro e n res tr h
    rcases captureLoop_frame_cases dirName d i writeOk unixNow e n with
      ⟨r, hr, hstop⟩ | hgo
    · rw [hstop fuel [] rfl] at h
      cases h
      exact hr
    · rw [hgo fuel [] rfl] at h
      obtain ⟨tr0, h0, rfl⟩ := map_prepend_eq_some h
      rw [dropRetries_append, ih _ _ _ _ h0]
      rfl

/-- A run without unusable reads that returns is matched by the run with them. -/
theorem captureLoop_dirty_of_clean (dirName : String) (d i : Int) (writeOk : Nat → Bool)
    (unixNow : Nat → Int) :
    ∀ (reads : List ReadOutcome) (fuel : Nat) (e : Int) (n : Nat) (res : Result)
      (tr : List Event),
      captureLoop dirName d i writeOk unixNow fuel [] e n = some (res, tr) →
      ∃ tr1, captureLoop dirName d i writeOk unixNow (fuel + reads.length) reads e n =
          some (res, tr1) ∧ dropRetries tr1 = tr := by
  intro reads
  induction reads with
  | nil =>
    intro fuel e n res tr h
    exact ⟨tr, h, captureLoop_nil_noRetry dirName d i writeOk unixNow fuel e n res tr h⟩
  | cons o rest ih =>
    intro fuel e n res tr h
    have hlen : fuel + (o :: rest).length = (fuel + rest.length) + 1 := by
      simp only [List.length_cons]; omega
    rw [hlen]
    cases o with
    | failed =>
      obtain ⟨tr1, h1, hd1⟩ := ih fuel e n res tr h
      refine ⟨_, by rw [captureLoop_failed, h1]; rfl, ?_⟩
      rw [dropRetries_append, hd1]; rfl
    | empty =>
      obtain ⟨tr1, h1, hd1⟩ := ih fuel e n res tr h
      refine ⟨_, by rw [captureLoop_empty, h1]; rfl, ?_⟩
      rw [dropRetries_append, hd1]; rfl
    | frame =>
      cases fuel with
      | zero => simp [captureLoop] at h
      | succ fuel =>
        rcases captureLoop_frame_cases dirName d i writeOk unixNow e n with
          ⟨r, hr, hstop⟩ | hgo
        · rw [hstop fuel [] rfl] at h
          cases h
          exact ⟨_, hstop _ (ReadOutcome.frame :: rest) rfl, hr⟩
        · rw [hgo fuel [] rfl] at h
          obtain ⟨tr0, h0, rfl⟩ := map_prepend_eq_some h
          obtain ⟨tr1, h1, hd1⟩ := ih fuel _ _ res tr0 h0
          have h2 := captureLoop_mono dirName d i writeOk unixNow _ _ _ _ _ h1 1
          have hf : fuel + 1 + rest.length = fuel + rest.length + 1 := by omega
          refine ⟨_, by rw [hgo _ (ReadOutcome.frame :: rest) rfl, List.tail_cons, hf, h2]; rfl, ?_⟩
          rw [dropRetries_append, hd1]; rfl

/-- A run with unusable reads that returns is matched by the run without them. -/
theorem captureLoop_clean_of_dirty (dirName : String) (d i : Int) (writeOk : Nat → Bool)
    (unixNow : Nat → Int) :
    ∀ (reads : List ReadOutcome) (fuel : Nat) (e : Int) (n : Nat) (res : Result)
      (tr : List Event),
      captureLoop dirName d i writeOk unixNow fuel reads e n = some (res, tr) →
      captureLoop dirName d i writeOk unixNow fuel [] e n = some (res, dropRetries tr) := by
  intro reads
  induction reads with
  | nil =>
    intro fuel e n res tr h
    rw [captureLoop_nil_noRetry dirName d i writeOk unixNow fuel e n res tr h]
    exact h
  | cons o rest ih =>
    intro fuel e n res tr h
    cases fuel with
    | zero => simp [captureLoop] at h
    | succ fuel =>
      cases o with
      | failed =>
        rw [captureLoop_failed] at h
        obtain ⟨tr0, h0, rfl⟩ := map_prepend_eq_some h
        rw [dropRetries_append]
        exact captureLoop_mono dirName d i writeOk unixNow _ _ _ _ _ (ih fuel e n res tr0 h0) 1
      | empty =>
        rw [captureLoop_empty] at h
        obtain ⟨tr0, h0, rfl⟩ := map_prepend_eq_some h
        rw [dropRetries_append]
        exact captureLoop_mono dirName d i writeOk unixNow _ _ _ _ _ (ih fuel e n res tr0 h0) 1
      | frame =>
        rcases captureLoop_frame_cases dirName d i writeOk unixNow e n with
          ⟨r, hr, hstop⟩ | hgo
        · rw [hstop fuel (ReadOutcome.frame :: rest) rfl] at h
          cases h
          rw [hr]
          exact hstop fuel [] rfl
        · rw [hgo fuel (ReadOutcome.frame :: rest) rfl] at h
          obtain ⟨tr0, h0, rfl⟩ := map_prepend_eq_some h
          rw [hgo fuel [] rfl, List.tail_nil, ih fuel _ _ res tr0 h0, dropRetries_append]
          rfl

theorem dropRetries_cons (ev : Event) (tr : List Event) :
    dropRetries (ev :: tr) = if isRetry ev = true then dropRetries tr else ev :: dropRetries tr := by
  unfold dropRetries
  rw [List.filter_cons]
  cases isRetry ev <;> simp

theorem imWriteCount_dropRetries (tr : List Event) :
    imWriteCount (dropRetries tr) = imWriteCount tr := by
  induction tr with
  | nil => rfl
  | cons ev tr ih =>
    rw [dropRetries_cons]
    cases ev with
    | camRead o => cases o <;> simp [isRetry, imWriteCount, ih]
    | _ => simp [isRetry, imWriteCount, ih]

theorem totalSlept_dropRetries (tr : List Event) :
    totalSlept (dropRetries tr) = totalSlept tr := by
  induction tr with
  | nil => rfl
  | cons ev tr ih =>
    rw [dropRetries_cons]
    cases ev with
    | camRead o => cases o <;> simp [isRetry, totalSlept, ih]
    | _ => simp [isRetry, totalSlept, ih]

/-! Helper lemmas: `captureFrames` -/

theorem captureFrames_invalid (env : CaptureEnv) (fuel : Nat) (dirName : String)
    (deviceID : Nat) (d i : Int) (h : d ≤ i ∨ d = 0 ∨ i = 0) :
    ∃ msg, captureFrames env fuel dirName deviceID d i = some (Result.error msg, []) := by
  unfold captureFrames
  by_cases h0 : d = 0 ∨ i = 0
  · exact ⟨_, by rw [if_pos h0]⟩
  · have hle : d ≤ i := by
      rcases h with h | h | h
      · exact h
      · exact absurd (Or.inl h) h0
      · exact absurd (Or.inr h) h0
    exact ⟨_, by rw [if_neg h0, if_pos hle]⟩

theorem captureFrames_run (env : CaptureEnv) (fuel : Nat) (dirName : String)
    (deviceID : Nat) (d i : Int) (hd : d ≠ 0) (hi : i ≠ 0) (hlt : i < d)
    (hopen : env.openErr = none) (hmk : env.mkdirErr = none) :
    captureFrames env fuel dirName deviceID d i =
      (captureLoop dirName d i env.writeOk env.unixNow fuel env.reads 0 0).map
        (fun r => andThen (prepend (setupEvents dirName deviceID d i) r) [Event.camClose]) := by
  unfold captureFrames
  rw [if_neg (by simp [hd, hi]), if_neg (not_le.mpr hlt)]
  simp only [hopen, hmk]
  rfl

/-- Either `captureFrames` ends before the loop, with a result that does not depend on
the camera reads, or it is the loop between the set-up events and `cam.Close()`. -/
theorem captureFrames_cases (env : CaptureEnv) (dirName : String) (deviceID : Nat)
    (d i : Int) :
    (∃ r : Result × List Event, dropRetries r.2 = r.2 ∧
      ∀ (reads : List ReadOutcome) (fuel : Nat),
        captureFrames { env with reads := reads } fuel dirName deviceID d i = some r) ∨
    (∀ (reads : List ReadOutcome) (fuel : Nat),
      captureFrames { env with reads := reads } fuel dirName deviceID d i =
        (captureLoop dirName d i env.writeOk env.unixNow fuel reads 0 0).map
          (fun r => andThen (prepend (setupEvents dirName deviceID d i) r) [Event.camClose])) := by
  by_cases h0 : d = 0 ∨ i = 0
  · left
    exact ⟨_, rfl, fun reads fuel => by unfold captureFrames; rw [if_pos h0]⟩
  by_cases hle : d ≤ i
  · left
    exact ⟨_, rfl, fun reads fuel => by unfold captureFrames; rw [if_neg h0, if_pos hle]⟩
  have hd : d ≠ 0 := fun h => h0 (Or.inl h)
  have hi : i ≠ 0 := fun h => h0 (Or.inr h)
  rcases Option.eq_none_or_eq_some env.openErr with hopen | ⟨e, hopen⟩
  · rcases Option.eq_none_or_eq_some env.mkdirErr with hmk | ⟨e, hmk⟩
    · right
      intro reads fuel
      exact captureFrames_run { env with reads := reads } fuel dirName deviceID d i hd hi
        (not_le.mp hle) hopen hmk
    · left
      refine ⟨(Result.error ("failed to create directory for timelapse images: " ++ e),
        setupEvents dirName deviceID d i ++ [Event.camClose]), rfl, fun reads fuel => ?_⟩
      unfold captureFrames
      rw [if_neg h0, if_neg hle]
      simp only [hopen, hmk]
      rfl
  · left
    refine ⟨(Result.error ("failed to open video capture: " ++ e),
      [Event.logFrameCount (wrapInt64 (wrapInt64 (Int.tdiv d i) + 1)),
        Event.openVideoCapture (uintToInt deviceID)]), rfl, fun reads fuel => ?_⟩
    unfold captureFrames
    rw [if_neg h0, if_neg hle]
    simp only [hopen]

theorem map_wrap_eq_some {o : Option (Result × List Event)} {setup : List Event}
    {res : Result} {tr : List Event}
    (h : o.map (fun r => andThen (prepend setup r) [Event.camClose]) = some (res, tr)) :
    ∃ tr0, o = some (res, tr0) ∧ tr = setup ++ tr0 ++ [Event.camClose] := by
  cases o with
  | none => simp at h
  | some r =>
    obtain ⟨r1, r2⟩ := r
    simp only [Option.map_some', prepend, andThen, Option.some.injEq, Prod.mk.injEq] at h
    exact ⟨r2, by rw [h.1], h.2.symm⟩

theorem dropRetries_wrap (dirName : String) (deviceID : Nat) (d i : Int) (tr : List Event) :
    dropRetries (setupEvents dirName deviceID d i ++ tr ++ [Event.camClose]) =
      setupEvents dirName deviceID d i ++ dropRetries tr ++ [Event.camClose] := by
  rw [dropRetries_append, dropRetries_append]
  rfl

theorem imWriteCount_append (a b : List Event) :
    imWriteCount (a ++ b) = imWriteCount a + imWriteCount b := by
  induction a with
  | nil => simp [imWriteCount]
  | cons ev a ih =>
    cases ev <;> simp [imWriteCount, ih]
    omega

theorem totalSlept_append (a b : List Event) :
    totalSlept (a ++ b) = totalSlept a + totalSlept b := by
  induction a with
  | nil => simp [totalSlept]
  | cons ev a ih =>
    cases ev <;> simp [totalSlept, ih]
    ring

theorem cleanTrace_ends (dirName : String) (i : Int) (unixNow : Nat → Int) :
    ∀ m k : Nat, ∃ pre, cleanTrace dirName i unixNow k m =
      pre ++ frameEvents dirName unixNow (k + m) := by
  intro m
  induction m with
  | zero => intro k; exact ⟨[], rfl⟩
  | succ m ih =>
    intro k
    obtain ⟨pre, hpre⟩ := ih (k + 1)
    refine ⟨frameEvents dirName unixNow k ++ Event.sleep i :: pre, ?_⟩
    rw [cleanTrace, hpre]
    have : k + 1 + m = k + (m + 1) := by omega
    rw [this]
    simp

/-- The complete run of `captureFrames` when nothing fails and the elapsed time does not
overflow. -/
theorem captureFrames_clean (env : CaptureEnv) (dirName : String) (deviceID : Nat)
    (d i : Int) (hi : 0 < i) (hd : i < d)
    (hfit : (sleepsNeeded d i : Int) * i < 2 ^ 63)
    (hopen : env.openErr = none) (hmk : env.mkdirErr = none) (hreads : env.reads = [])
    (hw : ∀ n, env.writeOk n = true) :
    captureFrames env (sleepsNeeded d i + 1) dirName deviceID d i =
      some (Result.ok, setupEvents dirName deviceID d i ++
        cleanTrace dirName i env.unixNow 0 (sleepsNeeded d i) ++ [Event.camClose]) := by
  have hd0 : 0 < d := lt_trans hi hd
  rw [captureFrames_run env _ dirName deviceID d i hd0.ne' hi.ne' hd hopen hmk, hreads]
  have h := captureLoop_clean dirName d i env.writeOk env.unixNow hi hd0 hw hfit
    (sleepsNeeded d i) 0 (by omega)
  simp only [Nat.cast_zero, zero_mul] at h
  rw [h]
  rfl

theorem captureLoop_wraps_forever (dirName : String) (unixNow : Nat → Int) :
    ∀ (fuel : Nat) (e : Int) (n : Nat),
      e = 0 ∨ e = 4611686018427387904 ∨ e = -9223372036854775808 ∨
        e = -4611686018427387904 →
      captureLoop dirName 9223372036854775807 4611686018427387904 (fun _ => true) unixNow
        fuel [] e n = none := by
  intro fuel
  induction fuel with
  | zero => intro e n _; rfl
  | succ fuel ih =>
    intro e n he
    have hlt : e < 9223372036854775807 := by omega
    have hnext : wrapInt64 (e + 4611686018427387904) = 0 ∨
        wrapInt64 (e + 4611686018427387904) = 4611686018427387904 ∨
        wrapInt64 (e + 4611686018427387904) = -9223372036854775808 ∨
        wrapInt64 (e + 4611686018427387904) = -4611686018427387904 := by
      unfold wrapInt64; omega
    rw [captureLoop_frame_continue dirName _ _ _ unixNow fuel [] e n rfl rfl hlt,
      List.tail_nil, ih _ _ hnext]
    rfl

/-! Capture stage: the claims -/

/-- C1 (the code departs from the claim): with `duration = 5m` and `interval = 2m`, every
read and write succeeding, `captureFrames` returns without error, announces
`floor(5m / 2m) + 1 = 3` frames in its log line and writes 4 frames. -/
theorem captureFrames_writes_more_than_announced :
    (captureFrames (captureWith []) 4 "frames/" 0 300000000000 120000000000).map
        (fun r => (r.1, imWriteCount r.2, r.2.head?)) =
      some (Result.ok, 4, some (Event.logFrameCount 3)) ∧
    Int.tdiv 300000000000 120000000000 + 1 = 3 := by
  decide

/-- C4: when `duration <= interval`, or `duration = 0`, or `interval = 0`, `captureFrames`
returns an error and its trace is empty: the camera is not opened, the frame directory is
not created and no frame is written. -/
theorem captureFrames_rejects_before_io (env : CaptureEnv) (fuel : Nat) (dirName : String)
    (deviceID : Nat) (duration interval : Int)
    (h : duration ≤ interval ∨ duration = 0 ∨ interval = 0) :
    ∃ msg, captureFrames env fuel dirName deviceID duration interval =
      some (Result.error msg, []) :=
  captureFrames_invalid env fuel dirName deviceID duration interval h

theorem captureFrames_rejects_before_io_witness :
    ((60000000000 : Int) ≤ 60000000000 ∨ (60000000000 : Int) = 0 ∨ (60000000000 : Int) = 0) ∧
    ∃ msg, captureFrames (captureWith []) 10 "frames/" 0 60000000000 60000000000 =
      some (Result.error msg, []) :=
  ⟨by decide, captureFrames_rejects_before_io (captureWith []) 10 "frames/" 0 60000000000
    60000000000 (by decide)⟩

/-- C8: for `duration > interval > 0` and camera reads with finitely many failed or empty
ones (the list `env.reads`, after which every read yields a frame):
(1) an iteration with a failed or empty read records only retry events (no write, no
sleep) and goes on with the next read, the elapsed time and the frame counter unchanged;
(2) when the run without unusable reads returns, the run with them returns the same
result, with the same events once the retries are left out, so the same number of frames
written and the same time slept; (3) conversely; (4) when the elapsed time does not
overflow and the calls succeed, the run with the unusable reads returns without error
after writing `sleepsNeeded duration interval + 1` frames. -/
theorem captureFrames_retries_failed_reads (env : CaptureEnv) (dirName : String)
    (deviceID : Nat) (duration interval : Int) (hi : 0 < interval) (hd : interval < duration) :
    (∀ (fuel : Nat) (o : ReadOutcome) (rest : List ReadOutcome) (e : Int) (n : Nat),
      o ≠ ReadOutcome.frame →
      ∃ evs, (∀ ev ∈ evs, isRetry ev = true) ∧
        captureLoop dirName duration interval env.writeOk env.unixNow (fuel + 1) (o :: rest) e n =
          (captureLoop dirName duration interval env.writeOk env.unixNow fuel rest e n).map
            (prepend evs)) ∧
    (∀ (fuel : Nat) (res : Result) (tr : List Event),
      captureFrames { env with reads := [] } fuel dirName deviceID duration interval =
        some (res, tr) →
      ∃ tr1, captureFrames env (fuel + env.reads.length) dirName deviceID duration interval =
          some (res, tr1) ∧
        dropRetries tr1 = tr ∧ imWriteCount tr1 = imWriteCount tr ∧
        totalSlept tr1 = totalSlept tr) ∧
    (∀ (fuel : Nat) (res : Result) (tr1 : List Event),
      captureFrames env fuel dirName deviceID duration interval = some (res, tr1) →
      captureFrames { env with reads := [] } fuel dirName deviceID duration interval =
          some (res, dropRetries tr1) ∧
        imWriteCount (dropRetries tr1) = imWriteCount tr1) ∧
    ((sleepsNeeded duration interval : Int) * interval < 2 ^ 63 → env.openErr = none →
      env.mkdirErr = none → (∀ n, env.writeOk n = true) →
      ∃ tr1, captureFrames env (sleepsNeeded duration interval + 1 + env.reads.length) dirName
          deviceID duration interval = some (Result.ok, tr1) ∧
        imWriteCount tr1 = sleepsNeeded duration interval + 1) := by
  have henv : env = { env with reads := env.reads } := rfl
  have key : ∀ (fuel : Nat) (res : Result) (tr : List Event),
      captureFrames { env with reads := [] } fuel dirName deviceID duration interval =
        some (res, tr) →
      ∃ tr1, captureFrames env (fuel + env.reads.length) dirName deviceID duration interval =
          some (res, tr1) ∧ dropRetries tr1 = tr := by
    intro fuel res tr h
    rcases captureFrames_cases env dirName deviceID duration interval with ⟨r, hr, hstop⟩ | hgo
    · rw [hstop [] fuel] at h
      cases h
      refine ⟨_, ?_, hr⟩
      rw [henv]
      exact hstop env.reads _
    · rw [hgo [] fuel] at h
      obtain ⟨tr0, h0, rfl⟩ := map_wrap_eq_some h
      obtain ⟨tr1, h1, hd1⟩ := captureLoop_dirty_of_clean dirName duration interval env.writeOk
        env.unixNow env.reads fuel 0 0 res tr0 h0
      refine ⟨setupEvents dirName deviceID duration interval ++ tr1 ++ [Event.camClose], ?_, ?_⟩
      · rw [henv, hgo env.reads _, h1]
        rfl
      · rw [dropRetries_wrap, hd1]
  refine ⟨?_, ?_, ?_, ?_⟩
  · intro fuel o rest e n ho
    cases o with
    | failed =>
      exact ⟨_, by simp [isRetry], captureLoop_failed dirName duration interval env.writeOk
        env.unixNow fuel rest e n⟩
    | empty =>
      exact ⟨_, by simp [isRetry], captureLoop_empty dirName duration interval env.writeOk
        env.unixNow fuel rest e n⟩
    | frame => exact absurd rfl ho
  · intro fuel res tr h
    obtain ⟨tr1, h1, hd1⟩ := key fuel res tr h
    refine ⟨tr1, h1, hd1, ?_, ?_⟩
    · rw [← hd1, imWriteCount_dropRetries]
    · rw [← hd1, totalSlept_dropRetries]
  · intro fuel res tr1 h
    refine ⟨?_, imWriteCount_dropRetries tr1⟩
    rcases captureFrames_cases env dirName deviceID duration interval with ⟨r, hr, hstop⟩ | hgo
    · rw [henv, hstop env.reads fuel] at h
      cases h
      rw [hr]
      exact hstop [] fuel
    · rw [henv, hgo env.reads fuel] at h
      obtain ⟨tr0, h0, rfl⟩ := map_wrap_eq_some h
      rw [hgo [] fuel, captureLoop_clean_of_dirty dirName duration interval env.writeOk
        env.unixNow env.reads fuel 0 0 res tr0 h0, dropRetries_wrap]
      rfl
  · intro hfit hopen hmk hw
    have hclean := captureFrames_clean { env with reads := [] } dirName deviceID duration
      interval hi hd hfit hopen hmk rfl hw
    obtain ⟨tr1, h1, hd1⟩ := key _ _ _ hclean
    refine ⟨tr1, h1, ?_⟩
    rw [← imWriteCount_dropRetries, hd1, imWriteCount_append, imWriteCount_append,
      imWriteCount_cleanTrace]
    simp [setupEvents, imWriteCount]

theorem captureFrames_retries_failed_reads_witness :
    (0 : Int) < 2 ∧ (2 : Int) < 5 ∧
    ∃ tr1, captureFrames
        (captureWith [ReadOutcome.failed, ReadOutcome.frame, ReadOutcome.empty,
          ReadOutcome.failed])
        (sleepsNeeded 5 2 + 1 + 4) "frames/" 0 5 2 = some (Result.ok, tr1) ∧
      imWriteCount tr1 = sleepsNeeded 5 2 + 1 :=
  ⟨by decide, by decide,
    (captureFrames_retries_failed_reads
      (captureWith [ReadOutcome.failed, ReadOutcome.frame, ReadOutcome.empty,
        ReadOutcome.failed]) "frames/" 0 5 2 (by decide) (by decide)).2.2.2
      (by decide) rfl rfl (fun _ => rfl)⟩

/-- C9 (as stated it fails): with `duration = 9223372036854775807ns` (the largest
`time.Duration`) and `interval = 4611686018427387904ns`, all reads and writes succeeding,
`timeElapsed` wraps around to a negative value and the loop never exits: no number of
iterations makes `captureFrames` return. -/
theorem captureFrames_overflow_never_returns :
    (0 : Int) < 4611686018427387904 ∧
    (4611686018427387904 : Int) < 9223372036854775807 ∧
    isInt64 9223372036854775807 ∧
    ∀ fuel : Nat, captureFrames (captureWith []) fuel "frames/" 0 9223372036854775807
      4611686018427387904 = none := by
  refine ⟨by decide, by decide, by decide, fun fuel => ?_⟩
  rw [captureFrames_run (captureWith []) fuel "frames/" 0 _ _ (by decide) (by decide)
    (by decide) rfl rfl]
  show Option.map _ (captureLoop "frames/" 9223372036854775807 4611686018427387904
    (fun _ => true) _ fuel [] 0 0) = none
  rw [captureLoop_wraps_forever "frames/" _ fuel 0 0 (Or.inl rfl)]
  rfl

/-- C9 (amended): for `duration > interval > 0` such that the first multiple of `interval`
that reaches `duration` is below `2 ^ 63`, all reads and writes succeeding,
`captureFrames` returns without error after exactly `sleepsNeeded duration interval + 1`
iterations and not earlier; its trace is the set-up, `sleepsNeeded` iterations that write
a frame and sleep, one more iteration that writes a frame, and `cam.Close()`; the time
slept `T` is `sleepsNeeded * interval`, with `duration <= T < duration + interval`, and every
smaller multiple of `interval` is below `duration`. -/
theorem captureFrames_exits_at_first_multiple (env : CaptureEnv) (dirName : String)
    (deviceID : Nat) (duration interval : Int) (hi : 0 < interval) (hd : interval < duration)
    (hfit : (sleepsNeeded duration interval : Int) * interval < 2 ^ 63)
    (hopen : env.openErr = none) (hmk : env.mkdirErr = none) (hreads : env.reads = [])
    (hw : ∀ n, env.writeOk n = true) :
    ∃ tr pre,
      captureFrames env (sleepsNeeded duration interval + 1) dirName deviceID duration interval =
        some (Result.ok, tr) ∧
      (∀ fuel, fuel ≤ sleepsNeeded duration interval →
        captureFrames env fuel dirName deviceID duration interval = none) ∧
      tr = setupEvents dirName deviceID duration interval ++
        (pre ++ frameEvents dirName env.unixNow (sleepsNeeded duration interval)) ++
        [Event.camClose] ∧
      pre ++ frameEvents dirName env.unixNow (sleepsNeeded duration interval) =
        cleanTrace dirName interval env.unixNow 0 (sleepsNeeded duration interval) ∧
      imWriteCount tr = sleepsNeeded duration interval + 1 ∧
      totalSlept tr = (sleepsNeeded duration interval : Int) * interval ∧
      duration ≤ totalSlept tr ∧ totalSlept tr < duration + interval ∧
      (∀ k : Nat, k < sleepsNeeded duration interval → (k : Int) * interval < duration) := by
  have hd0 : 0 < duration := lt_trans hi hd
  obtain ⟨pre, hpre⟩ := cleanTrace_ends dirName interval env.unixNow
    (sleepsNeeded duration interval) 0
  rw [Nat.zero_add] at hpre
  have hrun := captureFrames_clean env dirName deviceID duration interval hi hd hfit hopen hmk
    hreads hw
  have hslept : totalSlept (setupEvents dirName deviceID duration interval ++
      cleanTrace dirName interval env.unixNow 0 (sleepsNeeded duration interval) ++
      [Event.camClose]) = (sleepsNeeded duration interval : Int) * interval := by
    rw [totalSlept_append, totalSlept_append, totalSlept_cleanTrace]
    simp [setupEvents, totalSlept]
  refine ⟨_, pre, hrun, ?_, by rw [hpre], hpre.symm, ?_, hslept, ?_, ?_, ?_⟩
  · intro fuel hfuel
    rw [captureFrames_run env fuel dirName deviceID duration interval hd0.ne' hi.ne' hd hopen
      hmk, hreads]
    have hnone := captureLoop_short dirName duration interval env.writeOk env.unixNow hi hd0 hw
      hfit (sleepsNeeded duration interval) 0 (by omega)
    simp only [Nat.cast_zero, zero_mul] at hnone
    cases hf : captureLoop dirName duration interval env.writeOk env.unixNow fuel [] 0 0 with
    | none => rfl
    | some r =>
      have hmono := captureLoop_mono dirName duration interval env.writeOk env.unixNow fuel []
        0 0 r hf (sleepsNeeded duration interval - fuel)
      rw [show fuel + (sleepsNeeded duration interval - fuel) = sleepsNeeded duration interval
        by omega, hnone] at hmono
      cases hmono
  · rw [imWriteCount_append, imWriteCount_append, imWriteCount_cleanTrace]
    simp [setupEvents, imWriteCount]
  · rw [hslept]; exact (sleepsNeeded_spec hi hd0).1
  · rw [hslept]; exact (sleepsNeeded_spec hi hd0).2
  · intro k hk
    exact lt_of_lt_sleepsNeeded hi hd0 hk

theorem captureFrames_exits_at_first_multiple_witness :
    ∃ tr pre,
      captureFrames (captureWith []) (sleepsNeeded 5 2 + 1) "frames/" 0 5 2 =
        some (Result.ok, tr) ∧
      (∀ fuel, fuel ≤ sleepsNeeded 5 2 →
        captureFrames (captureWith []) fuel "frames/" 0 5 2 = none) ∧
      tr = setupEvents "frames/" 0 5 2 ++
        (pre ++ frameEvents "frames/" (captureWith []).unixNow (sleepsNeeded 5 2)) ++
        [Event.camClose] ∧
      pre ++ frameEvents "frames/" (captureWith []).unixNow (sleepsNeeded 5 2) =
        cleanTrace "frames/" 2 (captureWith []).unixNow 0 (sleepsNeeded 5 2) ∧
      imWriteCount tr = sleepsNeeded 5 2 + 1 ∧
      totalSlept tr = (sleepsNeeded 5 2 : Int) * 2 ∧
      (5 : Int) ≤ totalSlept tr ∧ totalSlept tr < 5 + 2 ∧
      (∀ k : Nat, k < sleepsNeeded 5 2 → (k : Int) * 2 < 5) :=
  captureFrames_exits_at_first_multiple (captureWith []) "frames/" 0 5 2 (by decide)
    (by decide) (by decide) rfl rfl rfl (fun _ => rfl)

/-- C10 (as stated it fails): `duration = -1ns`, `interval = -2ns` passes the validation
(both are non-zero and `-1 > -2`), the camera is opened, and `interval > 0` is false. -/
theorem captureFrames_accepts_negative_interval :
    (∃ r, captureFrames (captureWith []) 1 "frames/" 0 (-1) (-2) = some r ∧
      Event.openVideoCapture 0 ∈ r.2) ∧
    isInt64 (-1) ∧ isInt64 (-2) ∧ ¬ ((0 : Int) < -2) := by
  refine ⟨⟨_, rfl, by decide⟩, by decide, by decide, by decide⟩

/-- C10 (amended): if `captureFrames` does not stop in the validation (it opens the
camera) then `duration` and `interval` are non-zero and `duration > interval`; the
invariant `duration > interval > 0` follows when `interval` is not negative. -/
theorem captureFrames_validated (env : CaptureEnv) (fuel : Nat) (dirName : String)
    (deviceID : Nat) (duration interval : Int)
    (h : captureFrames env fuel dirName deviceID duration interval = none ∨
      ∃ r id, captureFrames env fuel dirName deviceID duration interval = some r ∧
        Event.openVideoCapture id ∈ r.2) :
    duration ≠ 0 ∧ interval ≠ 0 ∧ interval < duration ∧
      (0 ≤ interval → 0 < interval ∧ interval < duration) := by
  have hvalid : ¬ (duration ≤ interval ∨ duration = 0 ∨ interval = 0) := by
    intro hbad
    obtain ⟨msg, hmsg⟩ := captureFrames_invalid env fuel dirName deviceID duration interval hbad
    rcases h with h | ⟨r, id, h, hmem⟩
    · rw [hmsg] at h; cases h
    · rw [hmsg] at h; cases h; simp at hmem
  refine ⟨fun h0 => hvalid (Or.inr (Or.inl h0)), fun h0 => hvalid (Or.inr (Or.inr h0)),
    not_le.mp (fun hle => hvalid (Or.inl hle)), fun hnn => ⟨?_, ?_⟩⟩
  · exact lt_of_le_of_ne hnn (fun h0 => hvalid (Or.inr (Or.inr h0.symm)))
  · exact not_le.mp (fun hle => hvalid (Or.inl hle))

theorem captureFrames_validated_witness :
    (3600000000000 : Int) ≠ 0 ∧ (60000000000 : Int) ≠ 0 ∧
      (60000000000 : Int) < 3600000000000 ∧
      ((0 : Int) ≤ 60000000000 → (0 : Int) < 60000000000 ∧
        (60000000000 : Int) < 3600000000000) :=
  captureFrames_validated (captureWith []) 0 "frames/" 0 3600000000000 60000000000
    (Or.inl rfl)

/-! Orchestration: the claims -/

/-- C5: when `fps = 0`, or `frame_step = 0`, or `cmd` is none of `both`, `capture`,
`stitch`, `main` returns normally after one log line, whatever the other flags, the
camera, the file system and the clock: neither `captureFrames` nor `stitchFrames` is
called. -/
theorem main_rejects_without_stages (now : String) (cenv : CaptureEnv) (senv : StitchEnv)
    (fuel : Nat) (flags : Flags)
    (h : flags.fps = 0 ∨ flags.frameStep = 0 ∨
      (flags.cmd ≠ "both" ∧ flags.cmd ≠ "capture" ∧ flags.cmd ≠ "stitch")) :
    ∃ msg, main now cenv senv fuel flags = some (Exit.returned, [MainEvent.log msg]) := by
  unfold main
  by_cases hstep : flags.frameStep = 0
  · exact ⟨_, by rw [if_pos hstep]⟩
  by_cases hfps : flags.fps = 0
  · exact ⟨_, by rw [if_neg hstep, if_pos hfps]⟩
  rcases h with h | h | ⟨h1, h2, h3⟩
  · exact absurd h hfps
  · exact absurd h hstep
  · refine ⟨"cmd must be either \"both\", \"capture\" or \"stitch\"", ?_⟩
    rw [if_neg hstep, if_neg hfps]
    simp only [if_neg h1, if_neg h2, if_neg h3]

theorem main_rejects_without_stages_witness :
    ((0 : Nat) = 0 ∨ (1 : Nat) = 0 ∨
      (("both" : String) ≠ "both" ∧ ("both" : String) ≠ "capture" ∧
        ("both" : String) ≠ "stitch")) ∧
    ∃ msg, main "Mon-02-Jan-2006_15-04-05" (captureWith [])
        { readDir := Except.ok [], writerErr := none, writeErr := fun _ => none } 0
        { cmd := "both", deviceID := 0, duration := 3600000000000, interval := 60000000000,
          fps := 0, frameStep := 1, stitchDir := "" } =
      some (Exit.returned, [MainEvent.log msg]) :=
  ⟨Or.inl rfl, main_rejects_without_stages _ _ _ _ _ (Or.inl rfl)⟩

/-! Helper lemmas: the stitch loop -/

theorem uintToInt_of_lt {k : Nat} (h : k < 2 ^ 63) : uintToInt k = (k : Int) := by
  unfold uintToInt wrapInt64
  omega

theorem stitchLoop_skip (dirName : String) (k : Nat) (writeErr : Nat → Option String)
    (f : FileInfo) (fs : List FileInfo) (count : Int) (n : Nat) (h : eligible f = false) :
    stitchLoop dirName k writeErr (f :: fs) count n = stitchLoop dirName k writeErr fs count n := by
  rw [stitchLoop]
  have h1 : (f.isDir || !HasSuffix f.name imageFormat) = true := by
    unfold eligible at h
    cases hd : f.isDir <;> cases hs : HasSuffix f.name imageFormat <;> simp_all
  rw [if_pos h1]

theorem stitchLoop_step (dirName : String) (k : Nat) (writeErr : Nat → Option String)
    (f : FileInfo) (fs : List FileInfo) (c n : Nat) (h : eligible f = true)
    (hk0 : 0 < k) (hk : k < 2 ^ 63) (hw : ∀ n, writeErr n = none) :
    stitchLoop dirName k writeErr (f :: fs) (c : Int) n =
      if (c + 1) % k = 0 then
        prepend [Event.imRead (dirName ++ f.name), Event.writerWrite (dirName ++ f.name) true]
          (stitchLoop dirName k writeErr fs ((c + 1 : Nat) : Int) (n + 1))
      else stitchLoop dirName k writeErr fs ((c + 1 : Nat) : Int) n := by
  rw [stitchLoop]
  have h1 : ¬ ((f.isDir || !HasSuffix f.name imageFormat) = true) := by
    unfold eligible at h
    cases hd : f.isDir <;> cases hs : HasSuffix f.name imageFormat <;> simp_all
  rw [if_neg h1, uintToInt_of_lt hk]
  have hk' : ¬ ((k : Int) = 0) := by omega
  have hmod : Int.tmod ((c : Int) + 1) (k : Int) = (((c + 1) % k : Nat) : Int) := by
    rw [Int.ofNat_tmod]; push_cast; rfl
  simp only [hk', if_false, hmod, hw]
  by_cases hz : (c + 1) % k = 0
  · rw [if_pos hz, hz]
    simp
  · have hz' : ((((c + 1) % k : Nat) : Int) ≠ 0) := by exact_mod_cast hz
    rw [if_neg hz, if_pos hz']
    simp

theorem atMultiples_cons (k first : Nat) (f : FileInfo) (l : List FileInfo) :
    atMultiples k first (f :: l) =
      if first % k = 0 then f :: atMultiples k (first + 1) l else atMultiples k (first + 1) l := by
  unfold atMultiples
  rw [List.enumFrom_cons, List.filter_cons]
  by_cases h : first % k = 0 <;> simp [h]

/-- With a step in the range of `int` and no failing write, the loop writes the entries
at the multiples of the step among the eligible ones. -/
theorem stitchLoop_selects (dirName : String) (k : Nat) (writeErr : Nat → Option String)
    (hk0 : 0 < k) (hk : k < 2 ^ 63) (hw : ∀ n, writeErr n = none) :
    ∀ (files : List FileInfo) (c n : Nat),
      stitchLoop dirName k writeErr files (c : Int) n =
        (Result.ok, writeEvents dirName (atMultiples k (c + 1) (files.filter eligible))) := by
  intro files
  induction files with
  | nil => intro c n; rfl
  | cons f fs ih =>
    intro c n
    cases he : eligible f with
    | false =>
      rw [stitchLoop_skip dirName k writeErr f fs _ n he, ih c n, List.filter_cons]
      simp [he]
    | true =>
      rw [stitchLoop_step dirName k writeErr f fs c n he hk0 hk hw, List.filter_cons]
      simp only [he, if_true]
      rw [atMultiples_cons]
      by_cases hz : (c + 1) % k = 0
      · simp only [hz, if_true]
        rw [ih (c + 1) (n + 1)]
        rfl
      · simp only [hz, if_false]
        rw [ih (c + 1) n]

theorem length_atMultiples (k : Nat) :
    ∀ (l : List FileInfo) (c : Nat),
      (atMultiples k (c + 1) l).length = (c + l.length) / k - c / k := by
  intro l
  induction l with
  | nil => intro c; simp [atMultiples]
  | cons f l ih =>
    intro c
    rw [atMultiples_cons, List.length_cons]
    have hsucc := Nat.succ_div c k
    have hmono : (c + 1) / k ≤ (c + 1 + l.length) / k := Nat.div_le_div_right (by omega)
    have hre : c + (l.length + 1) = c + 1 + l.length := by omega
    rw [hre]
    by_cases hz : (c + 1) % k = 0
    · have hdvd : k ∣ c + 1 := Nat.dvd_of_mod_eq_zero hz
      rw [if_pos hdvd] at hsucc
      simp only [hz, if_true, List.length_cons, ih (c + 1)]
      omega
    · have hdvd : ¬ k ∣ c + 1 := fun h => hz (Nat.mod_eq_zero_of_dvd h)
      rw [if_neg hdvd] at hsucc
      simp only [hz, if_false, ih (c + 1)]
      omega

theorem writtenFrames_append (a b : List Event) :
    writtenFrames (a ++ b) = writtenFrames a ++ writtenFrames b := by
  induction a with
  | nil => rfl
  | cons ev a ih =>
    cases ev with
    | writerWrite p ok => cases ok <;> simp [writtenFrames, ih]
    | _ => simp [writtenFrames, ih]

theorem writtenFrames_writeEvents (dirName : String) (fs : List FileInfo) :
    writtenFrames (writeEvents dirName fs) = fs.map (fun f => dirName ++ f.name) := by
  induction fs with
  | nil => rfl
  | cons f fs ih => simp [writeEvents, writtenFrames, ih]

theorem writerPaths_append (a b : List Event) :
    writerPaths (a ++ b) = writerPaths a ++ writerPaths b := by
  induction a with
  | nil => rfl
  | cons ev a ih => cases ev <;> simp [writerPaths, ih]

theorem writerPaths_stitchLoop (dirName : String) (k : Nat) (writeErr : Nat → Option String) :
    ∀ (files : List FileInfo) (count : Int) (n : Nat),
      writerPaths (stitchLoop dirName k writeErr files count n).2 = [] := by
  intro files
  induction files with
  | nil => intro count n; rfl
  | cons f fs ih =>
    intro count n
    rw [stitchLoop]
    dsimp only
    split_ifs
    · exact ih _ _
    · rfl
    · exact ih _ _
    · cases hw : writeErr n with
      | none => simp [prepend, writerPaths, ih]
      | some e => simp [writerPaths]

theorem digitChar_ne_slash (d : Nat) (h : d < 10) : Nat.digitChar d ≠ '/' := by
  interval_cases d <;> decide

theorem toDigitsCore_no_slash :
    ∀ (fuel n : Nat) (ds : List Char), '/' ∉ ds → '/' ∉ Nat.toDigitsCore 10 fuel n ds := by
  intro fuel
  induction fuel with
  | zero => intro n ds h; simpa [Nat.toDigitsCore] using h
  | succ fuel ih =>
    intro n ds h
    have hd : '/' ∉ Nat.digitChar (n % 10) :: ds := by
      intro hmem
      rcases List.mem_cons.mp hmem with h1 | h1
      · exact digitChar_ne_slash (n % 10) (Nat.mod_lt _ (by decide)) h1.symm
      · exact h h1
    rw [Nat.toDigitsCore]
    split_ifs
    · exact hd
    · exact ih _ _ hd

theorem FormatUint_no_slash (n : Nat) : '/' ∉ (FormatUint n).data := by
  unfold FormatUint Nat.toDigits
  exact toDigitsCore_no_slash _ _ _ (by simp)

/-! Stitch stage: the claims -/

/-- C2 (as stated it fails): (1) a listing with the single entry `1.jpg` and
`frame_step = 1`: the claim selects `1.jpg`, the code returns an error and writes
nothing; (2) three image files and `frame_step = 18446744073709551615`, for which
`int(frameStep)` is `-1`: no position is a multiple of the step, the code writes all
three files. -/
theorem stitchFrames_selection_fails :
    (writtenFrames (stitchFrames (stitchWith (plainFiles ["1.jpg"])) "frames/" 25 1).2 = [] ∧
      (specSelected 1 (plainFiles ["1.jpg"])).map (fun f => f.name) = ["1.jpg"]) ∧
    (writtenFrames (stitchFrames (stitchWith (plainFiles ["1.jpg", "2.jpg", "3.jpg"]))
        "frames/" 25 18446744073709551615).2 =
        ["frames/1.jpg", "frames/2.jpg", "frames/3.jpg"] ∧
      specSelected 18446744073709551615 (plainFiles ["1.jpg", "2.jpg", "3.jpg"]) = [] ∧
      uintToInt 18446744073709551615 = -1) := by
  decide

/-- C2 (amended): for a listing with at least two eligible entries and a step `k` with
`0 < k < 2 ^ 63`, the writer being created and every write succeeding, `stitchFrames`
returns without error and the frames it writes are exactly the eligible entries whose
1-based position among the eligible entries is a multiple of `k`, in listing order, read
from `dirName`; there are `floor(n / k)` of them for `n` eligible entries, and none of
them is among the first `k - 1` eligible entries. -/
theorem stitchFrames_writes_multiples (env : StitchEnv) (dirName : String) (fps k : Nat)
    (files : List FileInfo) (hdir : env.readDir = Except.ok files)
    (helig : 2 ≤ (files.filter eligible).length)
    (hk0 : 0 < k) (hk : k < 2 ^ 63) (hwr : env.writerErr = none)
    (hw : ∀ n, env.writeErr n = none) :
    (stitchFrames env dirName fps k).1 = Result.ok ∧
    writtenFrames (stitchFrames env dirName fps k).2 =
      (specSelected k files).map (fun f => dirName ++ f.name) ∧
    (specSelected k files).length = (files.filter eligible).length / k ∧
    atMultiples k 1 ((files.filter eligible).take (k - 1)) = [] := by
  have hrun : stitchFrames env dirName fps k =
      andThen (prepend
        ([Event.readDir dirName,
          Event.imRead (dirName ++ (files.headD { name := "", isDir := false }).name),
          Event.videoWriterFile (dirName ++ "../" ++ videoFileName fps k) "MJPG" fps] ++
          [Event.log ("  Timelapse video will be named \"" ++ videoFileName fps k ++ "\".")])
        (Result.ok, writeEvents dirName (specSelected k files))) [Event.writerClose] := by
    have hlen : 2 ≤ files.length := le_trans helig (List.length_filter_le _ _)
    unfold stitchFrames
    simp only [hdir, hwr]
    rw [if_neg (by omega)]
    have h := stitchLoop_selects dirName k env.writeErr hk0 hk hw files 0 0
    simp only [Nat.cast_zero, Nat.zero_add] at h
    rw [h]
    rfl
  refine ⟨by rw [hrun]; rfl, ?_, ?_, ?_⟩
  · rw [hrun]
    simp only [andThen, prepend, writtenFrames_append, writtenFrames_writeEvents]
    simp [writtenFrames]
  · have h := length_atMultiples k (files.filter eligible) 0
    simp only [Nat.zero_add, Nat.zero_div, Nat.sub_zero] at h
    exact h
  · have h := length_atMultiples k ((files.filter eligible).take (k - 1)) 0
    simp only [Nat.zero_add, Nat.zero_div, Nat.sub_zero, List.length_take] at h
    have hlt : min (k - 1) (files.filter eligible).length < k := by omega
    rw [Nat.div_eq_of_lt hlt] at h
    exact List.length_eq_zero.mp h

theorem stitchFrames_writes_multiples_witness :
    (stitchFrames (stitchWith (plainFiles ["01.jpg", "02.jpg", "03.jpg", "04.jpg", "05.jpg",
      "06.jpg", "07.jpg", "08.jpg", "09.jpg", "10.jpg"])) "frames/" 25 3).1 = Result.ok ∧
    writtenFrames (stitchFrames (stitchWith (plainFiles ["01.jpg", "02.jpg", "03.jpg",
      "04.jpg", "05.jpg", "06.jpg", "07.jpg", "08.jpg", "09.jpg", "10.jpg"])) "frames/" 25 3).2 =
      (specSelected 3 (plainFiles ["01.jpg", "02.jpg", "03.jpg", "04.jpg", "05.jpg",
        "06.jpg", "07.jpg", "08.jpg", "09.jpg", "10.jpg"])).map (fun f => "frames/" ++ f.name) ∧
    (specSelected 3 (plainFiles ["01.jpg", "02.jpg", "03.jpg", "04.jpg", "05.jpg",
      "06.jpg", "07.jpg", "08.jpg", "09.jpg", "10.jpg"])).length =
      ((plainFiles ["01.jpg", "02.jpg", "03.jpg", "04.jpg", "05.jpg", "06.jpg", "07.jpg",
        "08.jpg", "09.jpg", "10.jpg"]).filter eligible).length / 3 ∧
    atMultiples 3 1 (((plainFiles ["01.jpg", "02.jpg", "03.jpg", "04.jpg", "05.jpg", "06.jpg",
      "07.jpg", "08.jpg", "09.jpg", "10.jpg"]).filter eligible).take (3 - 1)) = [] :=
  stitchFrames_writes_multiples (stitchWith (plainFiles ["01.jpg", "02.jpg", "03.jpg",
    "04.jpg", "05.jpg", "06.jpg", "07.jpg", "08.jpg", "09.jpg", "10.jpg"])) "frames/" 25 3
    (plainFiles ["01.jpg", "02.jpg", "03.jpg", "04.jpg", "05.jpg", "06.jpg", "07.jpg",
      "08.jpg", "09.jpg", "10.jpg"]) rfl (by decide) (by decide) (by decide) rfl (fun _ => rfl)

/-- C3 (the code departs from the claim): a directory that holds one image file
`1600000000.jpg` and a text file `notes.txt` has one eligible entry, yet `stitchFrames`
creates the video writer, writes the single frame and returns without error. -/
theorem stitchFrames_one_image_creates_video :
    ((plainFiles ["1600000000.jpg", "notes.txt"]).filter eligible).length = 1 ∧
    stitchFrames (stitchWith (plainFiles ["1600000000.jpg", "notes.txt"])) "frames/" 25 1 =
      (Result.ok,
        [Event.readDir "frames/", Event.imRead "frames/1600000000.jpg",
          Event.videoWriterFile "frames/../fps-25_step-1_timelapse.avi" "MJPG" 25,
          Event.log "  Timelapse video will be named \"fps-25_step-1_timelapse.avi\".",
          Event.imRead "frames/1600000000.jpg",
          Event.writerWrite "frames/1600000000.jpg" true, Event.writerClose]) := by
  decide

/-- C6: the name of the video file is `fps-`, the decimal rendering of `fps`, `_step-`,
the decimal rendering of `frame_step` and `_timelapse.avi`; it holds no path separator;
whatever the directory, its listing and the outcome of the calls, `stitchFrames` asks for
at most one video writer, at `dirName ++ "../"` followed by that name, and it does ask for
it whenever the listing has two entries or more. -/
theorem videoFileName_deterministic (fps frameStep : Nat) :
    videoFileName fps frameStep =
      "fps-" ++ FormatUint fps ++ "_step-" ++ FormatUint frameStep ++ "_timelapse.avi" ∧
    '/' ∉ (videoFileName fps frameStep).data ∧
    (∀ (env : StitchEnv) (dirName : String),
      writerPaths (stitchFrames env dirName fps frameStep).2 = [] ∨
      writerPaths (stitchFrames env dirName fps frameStep).2 =
        [dirName ++ "../" ++ videoFileName fps frameStep]) ∧
    (∀ (env : StitchEnv) (dirName : String) (files : List FileInfo),
      env.readDir = Except.ok files → 2 ≤ files.length →
      writerPaths (stitchFrames env dirName fps frameStep).2 =
        [dirName ++ "../" ++ videoFileName fps frameStep]) := by
  have hopened : ∀ (env : StitchEnv) (dirName : String) (files : List FileInfo),
      env.readDir = Except.ok files → 2 ≤ files.length →
      writerPaths (stitchFrames env dirName fps frameStep).2 =
        [dirName ++ "../" ++ videoFileName fps frameStep] := by
    intro env dirName files hdir hlen
    unfold stitchFrames
    simp only [hdir]
    rw [if_neg (by omega)]
    cases hwr : env.writerErr with
    | some e => rfl
    | none =>
      simp only [andThen, prepend, writerPaths_append, writerPaths_stitchLoop]
      rfl
  have hname : videoFileName fps frameStep =
      "fps-" ++ FormatUint fps ++ "_step-" ++ FormatUint frameStep ++ "_timelapse.avi" := by
    simp only [videoFileName, videoFormat, String.append_assoc]
    rfl
  refine ⟨hname, ?_, ?_, hopened⟩
  · have h1 := FormatUint_no_slash fps
    have h2 := FormatUint_no_slash frameStep
    unfold videoFileName videoFormat
    simp only [String.data_append, List.mem_append, not_or]
    exact ⟨⟨⟨⟨⟨by decide, h1⟩, by decide⟩, h2⟩, by decide⟩, by decide⟩
  · intro env dirName
    cases hdir : env.readDir with
    | error e => left; unfold stitchFrames; simp only [hdir]; rfl
    | ok files =>
      by_cases hlen : files.length < 2
      · left; unfold stitchFrames; simp only [hdir]; rw [if_pos hlen]; rfl
      · right; exact hopened env dirName files hdir (by omega)

theorem videoFileName_deterministic_witness :
    videoFileName 25 1 = "fps-25_step-1_timelapse.avi" ∧
    writerPaths (stitchFrames (stitchWith (plainFiles ["1600000000.jpg", "1600000060.jpg"]))
      "./timelapses/Mon-02-Jan-2006_15-04-05/frames/" 25 1).2 =
      ["./timelapses/Mon-02-Jan-2006_15-04-05/frames/../fps-25_step-1_timelapse.avi"] :=
  ⟨by decide, by
    rw [(videoFileName_deterministic 25 1).2.2.2 _ _
      (plainFiles ["1600000000.jpg", "1600000060.jpg"]) rfl (by decide)]
    decide⟩

/-- C7 (the code departs from the claim): in stitch-only mode with `stitch_dir = frames`
(no trailing separator) `main` hands the flag unchanged to `stitchFrames`, which asks for
the video writer at `frames../fps-25_step-1_timelapse.avi` (inside a directory named
`frames..`, not in the parent of `frames`) and reads the frames from
`frames1600000000.jpg` and `frames1600000060.jpg` (beside the directory `frames`, not
inside it). -/
theorem main_stitch_dir_without_separator :
    main "Mon-02-Jan-2006_15-04-05" (captureWith [])
        (stitchWith (plainFiles ["1600000000.jpg", "1600000060.jpg"])) 0
        { cmd := "stitch", deviceID := 0, duration := 3600000000000, interval := 60000000000,
          fps := 25, frameStep := 1, stitchDir := "frames" } =
      some (Exit.returned,
        [MainEvent.log "> Generating timelapse video from frames.",
          MainEvent.stitchFrames "frames" 25 1 Result.ok
            [Event.readDir "frames", Event.imRead "frames1600000000.jpg",
              Event.videoWriterFile "frames../fps-25_step-1_timelapse.avi" "MJPG" 25,
              Event.log "  Timelapse video will be named \"fps-25_step-1_timelapse.avi\".",
              Event.imRead "frames1600000000.jpg",
              Event.writerWrite "frames1600000000.jpg" true,
              Event.imRead "frames1600000060.jpg",
              Event.writerWrite "frames1600000060.jpg" true, Event.writerClose],
          MainEvent.log "  Timelapse video stitching complete.",
          MainEvent.log "> Timelapse processing complete."]) := by
  decide

end Timelapse
